import Mathlib

/-!
Verification development for the CrudApiBuilder repository: a shallow
embedding of the persistence core (MongoDbRepository), the CrudService
orchestration layer, the query-parameter coercion middleware, the
CrudController pagination extraction, and the global error handler,
together with theorems about the claims of the specification.

Conventions of the embedding:
* A MongoDB document is a record with a numeric `_id` (ObjectId modelled
  as the value of its 24-digit hexadecimal text form), a `createdAt`
  timestamp drawn from a logical clock, and an association list of
  entity fields.  JavaScript objects have unique keys, so association
  lists are looked up by first occurrence.
* Field values are a closed sum `Val` (string / number / boolean /
  date).  The numeric value computed by JavaScript coercions is kept as
  its source text where only the kind of the coerced value matters.
* Operations execute sequentially against an explicit store state;
  fallible operations return `Except AppErr`.
-/

/-- Value stored in a document field: the closed set of primitive kinds
the schema layer produces (string, number, boolean, date). -/
inductive Val where
  | vStr (s : String)
  | vInt (n : Int)
  | vBool (b : Bool)
  | vDate (t : Int)
deriving DecidableEq, Repr

/-- Persisted document shape `MongoDocument<T>`: the entity fields plus
the system-assigned identifier and creation timestamp. -/
structure MDoc where
  id : Nat
  createdAt : Nat
  fields : List (String × Val)
deriving DecidableEq, Repr

/-- Field access `doc[f]` on a JavaScript object, modelled as first
lookup in the association list. -/
def getField (fields : List (String × Val)) (f : String) : Option Val :=
  List.lookup f fields

/-- Overwrite (or append) a single field, as one key assignment of a
MongoDB `$set` stage. -/
def setField : List (String × Val) → String → Val → List (String × Val)
  | [], k, v => [(k, v)]
  | (k', v') :: rest, k, v =>
      if k' = k then (k, v) :: rest else (k', v') :: setField rest k v

/-- Apply a whole `$set: data` update: every key of `data` is written,
other keys are untouched.  JavaScript objects carry unique keys, so the
fold direction is irrelevant for real inputs; folding from the right
makes the first occurrence win, matching `List.lookup`. -/
def docSet (fields : List (String × Val)) (data : List (String × Val)) :
    List (String × Val) :=
  data.foldr (fun kv acc => setField acc kv.1 kv.2) fields

theorem lookup_setField (fields : List (String × Val)) (k : String) (v : Val)
    (f : String) :
    List.lookup f (setField fields k v) =
      if f = k then some v else List.lookup f fields := by
  induction fields with
  | nil =>
      by_cases hf : f = k
      · subst hf
        simp [setField, List.lookup]
      · simp [setField, List.lookup, beq_eq_false_iff_ne.mpr hf, hf]
  | cons kv rest ih =>
      obtain ⟨k', v'⟩ := kv
      by_cases hk : k' = k
      · subst hk
        by_cases hf : f = k'
        · subst hf
          simp [setField, List.lookup]
        · simp [setField, List.lookup, beq_eq_false_iff_ne.mpr hf, hf]
      · by_cases hf : f = k'
        · subst hf
          simp [setField, hk, List.lookup, hk]
        · simp [setField, hk, List.lookup, beq_eq_false_iff_ne.mpr hf, ih]

theorem getField_docSet (fields data : List (String × Val)) (f : String) :
    getField (docSet fields data) f =
      match List.lookup f data with
      | some v => some v
      | none => getField fields f := by
  induction data with
  | nil => simp [docSet]
  | cons kv rest ih =>
      obtain ⟨k, v⟩ := kv
      have h2 : docSet fields ((k, v) :: rest) =
          setField (docSet fields rest) k v := rfl
      by_cases hf : f = k
      · show List.lookup f (docSet fields ((k, v) :: rest)) = _
        rw [h2, lookup_setField, if_pos hf]
        have h3 : List.lookup f ((k, v) :: rest) = some v := by
          simp [List.lookup, beq_iff_eq.mpr hf]
        rw [h3]
      · have h1 : List.lookup f ((k, v) :: rest) = List.lookup f rest := by
          simp [List.lookup, beq_eq_false_iff_ne.mpr hf]
        show List.lookup f (docSet fields ((k, v) :: rest)) = _
        rw [h2, lookup_setField, if_neg hf, h1]
        exact ih

theorem getField_docSet_of_lookup {data : List (String × Val)} {f : String}
    {v : Val} (fields : List (String × Val)) (h : List.lookup f data = some v) :
    getField (docSet fields data) f = some v := by
  rw [getField_docSet, h]

theorem getField_docSet_of_none {data : List (String × Val)} {f : String}
    (fields : List (String × Val)) (h : List.lookup f data = none) :
    getField (docSet fields data) f = getField fields f := by
  rw [getField_docSet, h]

theorem lookup_eq_none_of_not_mem_keys {data : List (String × Val)}
    {f : String} (h : f ∉ data.map Prod.fst) : List.lookup f data = none := by
  induction data with
  | nil => rfl
  | cons kv rest ih =>
      obtain ⟨k, v⟩ := kv
      simp only [List.map, List.mem_cons, not_or] at h
      simp [List.lookup, beq_eq_false_iff_ne.mpr h.1, ih h.2]

/-- Error categories of `ErrorType` in `config/errors.ts` (the members
the persistence core uses). -/
inductive ErrKind where
  | validation
  | notFound
  | duplicate
  | database
  | server
deriving DecidableEq, Repr

/-- Metadata value attached to an error: a string, a list of strings, or
a JSON rendering of a structured value. -/
inductive MetaVal where
  | str (s : String)
  | strs (l : List String)
  | json (s : String)
deriving DecidableEq, Repr

/-- The `ApplicationError` shape: type, message, HTTP status code and
optional structured metadata.  The wall-clock `timestamp` and the
`cause` chain carry no information the claims inspect and are outside
the embedding. -/
structure AppErr where
  kind : ErrKind
  message : String
  statusCode : Nat
  metadata : Option (List (String × MetaVal))
deriving DecidableEq, Repr

/-- Constructor of `ValidationError`: type VALIDATION_ERROR, status 400,
metadata carrying the field and the violation list. -/
def mkValidationErr (message : String) (field : String)
    (violations : List String) : AppErr :=
  ⟨ErrKind.validation, message, 400,
    some [("field", MetaVal.str field), ("violations", MetaVal.strs violations)]⟩

/-- The ValidationError every repository method raises for a malformed
ObjectId string. -/
def invalidIdErr : AppErr :=
  mkValidationErr "Invalid entity identifier format" "id"
    ["ID must be a valid MongoDB ObjectId format"]

/-- Value of one hexadecimal digit, accepting both letter cases as the
ObjectId constructor does. -/
def hexDigitVal (c : Char) : Option Nat :=
  if '0' ≤ c ∧ c ≤ '9' then some (c.toNat - '0'.toNat)
  else if 'a' ≤ c ∧ c ≤ 'f' then some (c.toNat - 'a'.toNat + 10)
  else if 'A' ≤ c ∧ c ≤ 'F' then some (c.toNat - 'A'.toNat + 10)
  else none

/-- Model of `new ObjectId(id)` on a string: accepts exactly the
24-character hexadecimal representations and yields the identifier
value; every other string makes the constructor throw, modelled as
`none`. -/
def parseObjectId (s : String) : Option Nat :=
  let cs := s.toList
  if cs.length = 24 ∧ cs.all (fun c => (hexDigitVal c).isSome) then
    some (cs.foldl (fun acc c => acc * 16 + (hexDigitVal c).getD 0) 0)
  else none

/-- State of one repository collection: the stored documents, the next
fresh identifier, and a logical clock supplying creation timestamps. -/
structure RepoState where
  docs : List MDoc
  nextId : Nat
  now : Nat
deriving DecidableEq, Repr

/-- Initial state: empty collection. -/
def emptyRepo : RepoState := ⟨[], 0, 0⟩

/-- Model of `MongoDbRepository.validateUniqueConstraints`: for every
configured unique field that has a defined value in `data`, look for an
existing document holding that value (excluding `excludeId` when
updating); `false` when any such document exists.  The source iterates
and returns at the first hit, which equals this all-fields conjunction. -/
def validateUniqueConstraints (uniqueFields : List String)
    (docs : List MDoc) (data : List (String × Val))
    (excludeId : Option Nat) : Bool :=
  uniqueFields.all fun f =>
    match List.lookup f data with
    | none => true
    | some v =>
        !(docs.any fun d =>
            getField d.fields f == some v &&
              (match excludeId with
               | none => true
               | some e => !(d.id == e)))

/-- Model of `MongoDbRepository.create`: pre-check unique constraints;
on violation return the `null` duplicate sentinel and leave the store
untouched; otherwise assign a fresh `_id` and `createdAt` and insert.
The duplicate-key race of two concurrent creates cannot arise in this
sequential model; its catch-block translation is `createMongoCatch`. -/
def repoCreate (uniqueFields : List String) (st : RepoState)
    (data : List (String × Val)) : Option MDoc × RepoState :=
  if validateUniqueConstraints uniqueFields st.docs data none then
    let doc : MDoc := ⟨st.nextId, st.now, data⟩
    (some doc, ⟨st.docs ++ [doc], st.nextId + 1, st.now + 1⟩)
  else
    (none, st)

/-- Model of `MongoDbRepository.read`: validate the ObjectId format
first and raise `ValidationError` on a malformed identifier without
touching the store; otherwise return the document or the `null`
not-found sentinel. -/
def repoRead (st : RepoState) (id : String) : Except AppErr (Option MDoc) :=
  match parseObjectId id with
  | none => Except.error invalidIdErr
  | some oid => Except.ok (st.docs.find? fun d => d.id == oid)

/-- Document produced by `$set: data` on `d`: identifier and creation
timestamp untouched, the keys of `data` overwritten. -/
def mkUpd (data : List (String × Val)) (d : MDoc) : MDoc :=
  ⟨d.id, d.createdAt, docSet d.fields data⟩

/-- Model of `findOneAndUpdate` with `returnDocument: "after"`: update
the first document matching the identifier, returning the post-update
document, or `none` when no document matches. -/
def updateFirst (docs : List MDoc) (oid : Nat)
    (data : List (String × Val)) : Option MDoc × List MDoc :=
  match docs with
  | [] => (none, [])
  | d :: rest =>
      if d.id == oid then
        (some (mkUpd data d), mkUpd data d :: rest)
      else
        let r := updateFirst rest oid data
        (r.1, d :: r.2)

/-- DuplicateError raised by `MongoDbRepository.update` when the unique
pre-check (scoped to exclude the updated document) fails. -/
def updatePrecheckDupErr (id : String) (data : List (String × Val))
    (uniqueFields : List String) : AppErr :=
  ⟨ErrKind.duplicate, "Update would violate unique constraint", 409,
    some [("entityId", MetaVal.str id),
          ("updateData", MetaVal.json (toString (repr data))),
          ("uniqueFields", MetaVal.strs uniqueFields),
          ("operation", MetaVal.str "update")]⟩

/-- Model of `MongoDbRepository.update`: validate the identifier, re-run
the unique pre-check excluding the target document, raise
DUPLICATE_ERROR (status 409) on a violation, else apply `$set` through
`findOneAndUpdate` and return the post-update document or the `null`
not-found sentinel. -/
def repoUpdate (uniqueFields : List String) (st : RepoState) (id : String)
    (data : List (String × Val)) :
    Except AppErr (Option MDoc × RepoState) :=
  match parseObjectId id with
  | none => Except.error invalidIdErr
  | some oid =>
      if validateUniqueConstraints uniqueFields st.docs data (some oid) then
        let r := updateFirst st.docs oid data
        Except.ok (r.1, ⟨r.2, st.nextId, st.now⟩)
      else
        Except.error (updatePrecheckDupErr id data uniqueFields)

/-- Equality-match of a filter against a document: every field present
in the filter must hold that exact value. -/
def docMatches (query : List (String × Val)) (d : MDoc) : Bool :=
  query.all fun kv => getField d.fields kv.1 == some kv.2

/-- Comparison of two field values, modelling the BSON sort order within
one type bracket (cross-type order follows the BSON type ranking; no
claim depends on its exact shape). -/
def valLe (a b : Val) : Bool :=
  match a, b with
  | Val.vInt x, Val.vInt y => decide (x ≤ y)
  | Val.vStr x, Val.vStr y => decide (x ≤ y)
  | Val.vBool x, Val.vBool y => !x || y
  | Val.vDate x, Val.vDate y => decide (x ≤ y)
  | Val.vInt _, _ => true
  | Val.vStr _, Val.vInt _ => false
  | Val.vStr _, _ => true
  | Val.vBool _, Val.vDate _ => true
  | Val.vBool _, _ => false
  | Val.vDate _, _ => false

/-- Sort order on optional field values: a missing field sorts lowest,
as BSON sorts missing before present values. -/
def optValLe (a b : Option Val) : Bool :=
  match a, b with
  | none, _ => true
  | some _, none => false
  | some x, some y => valLe x y

/-- Document comparison derived from `sort: { [sortBy]: sortOrder }`:
sorting on the system `createdAt` timestamp or on an entity field,
descending when `sortOrder` is `-1`. -/
def sortKeyLe (sortBy : String) (sortOrder : Int) (d1 d2 : MDoc) : Bool :=
  if sortBy = "createdAt" then
    if sortOrder = -1 then decide (d2.createdAt ≤ d1.createdAt)
    else decide (d1.createdAt ≤ d2.createdAt)
  else
    if sortOrder = -1 then optValLe (getField d2.fields sortBy) (getField d1.fields sortBy)
    else optValLe (getField d1.fields sortBy) (getField d2.fields sortBy)

/-- `PaginationOptions` with every member optional, as the repository
receives them. -/
structure PaginationOptions where
  skip : Option Nat
  limit : Option Nat
  sortBy : Option String
  sortOrder : Option Int
deriving DecidableEq, Repr

/-- `PaginatedResult` metadata computed by `MongoDbRepository.find`. -/
structure PaginatedResult where
  data : List MDoc
  total : Nat
  skip : Nat
  limit : Nat
  hasNext : Bool
  hasPrevious : Bool
deriving DecidableEq, Repr

/-- Model of `MongoDbRepository.find`: defaults `skip = 0`, `limit =
20`, `sortBy = "createdAt"`, `sortOrder = -1`; counts every document
matching the filter, sorts, then applies skip and limit (a zero limit
means no limit, as in the MongoDB driver); `hasNext = skip + limit <
total` and `hasPrevious = skip > 0`. -/
def repoFind (st : RepoState) (query : List (String × Val))
    (options : PaginationOptions) : PaginatedResult :=
  let skip := options.skip.getD 0
  let limit := options.limit.getD 20
  let sortBy := options.sortBy.getD "createdAt"
  let sortOrder := options.sortOrder.getD (-1)
  let matching := st.docs.filter (docMatches query)
  let total := matching.length
  let sorted := List.mergeSort matching (sortKeyLe sortBy sortOrder)
  let page := if limit = 0 then sorted.drop skip
              else (sorted.drop skip).take limit
  ⟨page, total, skip, limit, decide (skip + limit < total), decide (0 < skip)⟩

/-- Model of `extractDuplicateField`: first match of the pattern
`index:` followed by whitespace and a nonempty run of non-whitespace
characters, else the `unknown_field` fallback. -/
def regexSpace (c : Char) : Bool :=
  c == ' ' || c == '\t' || c == '\n' || c == '\r' ||
    c == Char.ofNat 11 || c == Char.ofNat 12

def findIndexToken : List Char → Option (List Char)
  | [] => none
  | c :: rest =>
      if (c :: rest).take 6 = "index:".toList then
        let after := (c :: rest).drop 6
        let ws := after.takeWhile regexSpace
        let tok := (after.dropWhile regexSpace).takeWhile (fun x => !regexSpace x)
        if ws ≠ [] ∧ tok ≠ [] then some tok else findIndexToken rest
      else findIndexToken rest

def extractDuplicateField (errorMessage : String) : String :=
  match findIndexToken errorMessage.toList with
  | some tok => String.mk tok
  | none => "unknown_field"

/-- Error thrown by the driver and caught in the repository catch
blocks: a `MongoServerError` with its numeric code, or any other
failure. -/
inductive CaughtErr where
  | mongoServer (code : Nat) (message : String)
  | generic (message : String)
deriving DecidableEq, Repr

/-- The `message` property of the caught error. -/
def caughtMessage : CaughtErr → String
  | CaughtErr.mongoServer _ m => m
  | CaughtErr.generic m => m

/-- Catch-block translation of `MongoDbRepository.create` (source lines
234 to 268): duplicate-key code 11000 becomes DUPLICATE_ERROR 409 with
the offending index name; every other failure becomes DATABASE_ERROR
500 whose metadata carries the native error text as `originalError`. -/
def createMongoCatch (collectionName : String) (err : CaughtErr) : AppErr :=
  match err with
  | CaughtErr.mongoServer 11000 msg =>
      ⟨ErrKind.duplicate, "Duplicate value detected", 409,
        some [("duplicateField", MetaVal.str (extractDuplicateField msg)),
              ("collectionName", MetaVal.str collectionName),
              ("operation", MetaVal.str "create")]⟩
  | _ =>
      ⟨ErrKind.database, "Database operation failed during entity creation", 500,
        some [("operation", MetaVal.str "create"),
              ("collectionName", MetaVal.str collectionName),
              ("originalError", MetaVal.str (caughtMessage err))]⟩

/-- Catch-block translation of `MongoDbRepository.update` (source lines
390 to 433) for errors that are not already application errors. -/
def updateMongoCatch (collectionName : String) (entityId : String)
    (err : CaughtErr) : AppErr :=
  match err with
  | CaughtErr.mongoServer 11000 msg =>
      ⟨ErrKind.duplicate, "Update would create duplicate value", 409,
        some [("duplicateField", MetaVal.str (extractDuplicateField msg)),
              ("entityId", MetaVal.str entityId),
              ("operation", MetaVal.str "update")]⟩
  | _ =>
      ⟨ErrKind.database, "Database operation failed during entity update", 500,
        some [("operation", MetaVal.str "update"),
              ("entityId", MetaVal.str entityId),
              ("collectionName", MetaVal.str collectionName),
              ("originalError", MetaVal.str (caughtMessage err))]⟩

/-- Model of `CrudService.create` (application/services/crud.ts): calls
the repository and, when the repository returns the falsy duplicate
sentinel, throws `ApplicationError` with type DATABASE_ERROR, message
"Failed to create entity" and status 500. -/
def serviceCreate (uniqueFields : List String) (st : RepoState)
    (data : List (String × Val)) : Except AppErr (MDoc × RepoState) :=
  match repoCreate uniqueFields st data with
  | (none, _) =>
      Except.error ⟨ErrKind.database, "Failed to create entity", 500, none⟩
  | (some d, st') => Except.ok (d, st')

/-- Error value reaching the centralized handler: an application error,
a raw `MongoServerError`, or any other thrown value. -/
inductive ThrownErr where
  | app (e : AppErr)
  | mongo (code : Nat) (message : String)
  | plain (message : String)
deriving DecidableEq, Repr

/-- Body of the HTTP error envelope produced by the centralized
handler; `details` is present exactly when the error carried metadata. -/
structure ErrResponse where
  success : Bool
  etype : ErrKind
  message : String
  details : Option (List (String × MetaVal))
deriving DecidableEq, Repr

/-- Model of `globalErrorHandler`: an `ApplicationError` keeps its
status, type and message and has its metadata attached verbatim as
`details`; a raw duplicate-key `MongoServerError` maps to 409; anything
else maps to the generic 500 SERVER_ERROR with no details. -/
def globalErrorHandler : ThrownErr → Nat × ErrResponse
  | ThrownErr.app e => (e.statusCode, ⟨false, e.kind, e.message, e.metadata⟩)
  | ThrownErr.mongo code msg =>
      if code = 11000 then
        (409, ⟨false, ErrKind.duplicate, "Duplicate value detected",
          some [("duplicateField", MetaVal.str (extractDuplicateField msg))]⟩)
      else
        (500, ⟨false, ErrKind.server, "Internal server error occurred", none⟩)
  | ThrownErr.plain _ =>
      (500, ⟨false, ErrKind.server, "Internal server error occurred", none⟩)

/-- A string appears verbatim as a metadata value inside the response
details. -/
def leaksText (r : ErrResponse) (s : String) : Bool :=
  match r.details with
  | none => false
  | some m =>
      m.any fun kv =>
        match kv.2 with
        | MetaVal.str t => t == s
        | _ => false

/-- State of the backing database as initialization sees it: which
collections exist and which index names exist on this repository's
collection. -/
structure DbState where
  collections : List String
  indexNames : List String
deriving DecidableEq, Repr

/-- Index name the repository derives for a unique field. -/
def idxName (field : String) : String := "idx_unique_" ++ field

/-- Driver-side `createIndexes`: modelled with the outcome the
repository's catch block tolerates — requesting an index whose name is
already present reports an "index already exists" failure and changes
nothing, otherwise the indexes are added. -/
def mongoCreateIndexes (db : DbState) (names : List String) :
    Except String DbState :=
  if names.any (fun n => db.indexNames.contains n) then
    Except.error "index already exists"
  else
    Except.ok { db with indexNames := db.indexNames ++ names }

/-- Model of `MongoDbRepository.createIndexes`: without configured
unique fields it does nothing; otherwise it requests one unique index
per field and swallows any creation error (warn only), so an
already-existing index is success. -/
def repoCreateIndexes (uniqueFields : Option (List String))
    (db : DbState) : DbState :=
  match uniqueFields with
  | none => db
  | some fs =>
      let names := fs.map idxName
      if 0 < names.length then
        match mongoCreateIndexes db names with
        | Except.ok db2 => db2
        | Except.error _ => db
      else db

/-- Model of `MongoDbRepository.initCollections`: list collections,
create the collection only when missing, then ensure indexes; returns
whether the collection was newly created. -/
def initCollections (uniqueFields : Option (List String))
    (collectionName : String) (db : DbState) : DbState × Bool :=
  let isNew := !(db.collections.contains collectionName)
  let db1 :=
    if isNew then { db with collections := db.collections ++ [collectionName] }
    else db
  (repoCreateIndexes uniqueFields db1, isNew)

/-- Whitespace for the JavaScript string trimming and `parseInt`
scanning (the ASCII members; the inputs of this development are
ASCII). -/
def jsWhitespace (c : Char) : Bool := regexSpace c

/-- Model of `String.prototype.trim` on a character list. -/
def jsTrimList (l : List Char) : List Char :=
  ((l.dropWhile jsWhitespace).reverse.dropWhile jsWhitespace).reverse

/-- Model of `value.trim()`. -/
def jsTrim (s : String) : String := String.mk (jsTrimList s.toList)

/-- Nonempty run of characters all satisfying `p`. -/
def allDigits1 (p : Char → Bool) (l : List Char) : Bool :=
  !l.isEmpty && l.all p

/-- Exponent tail of a JavaScript decimal literal: empty, or `e`/`E`
with an optionally signed nonempty digit run. -/
def expTail : List Char → Bool
  | [] => true
  | c :: rest =>
      (c == 'e' || c == 'E') &&
        (match rest with
         | '+' :: r => allDigits1 Char.isDigit r
         | '-' :: r => allDigits1 Char.isDigit r
         | r => allDigits1 Char.isDigit r)

/-- Tail after the integer digits of a decimal literal: optional
fraction (possibly empty digits) then optional exponent. -/
def decTail (l : List Char) : Bool :=
  match l with
  | '.' :: rest => expTail (rest.dropWhile Char.isDigit)
  | l => expTail l

/-- Body of an unsigned decimal literal: `digits [. digits] [exp]` or
`. digits [exp]`. -/
def decBody (l : List Char) : Bool :=
  match l with
  | '.' :: rest =>
      !(rest.takeWhile Char.isDigit).isEmpty &&
        expTail (rest.dropWhile Char.isDigit)
  | l =>
      !(l.takeWhile Char.isDigit).isEmpty && decTail (l.dropWhile Char.isDigit)

/-- Unsigned numeric body: `Infinity` or a decimal literal. -/
def unsignedNumBody (l : List Char) : Bool :=
  l == "Infinity".toList || decBody l

/-- Model of `!isNaN(Number(value))` for strings, following the
ECMAScript string-to-number grammar: surrounding whitespace is trimmed;
the empty remainder is the number 0; otherwise an unsigned hexadecimal,
octal or binary literal, or an optionally signed decimal literal or
Infinity. -/
def jsNumberNotNaN (s : String) : Bool :=
  let t := jsTrimList s.toList
  if t.isEmpty then true
  else
    match t with
    | '0' :: 'x' :: r => allDigits1 (fun c => (hexDigitVal c).isSome) r
    | '0' :: 'X' :: r => allDigits1 (fun c => (hexDigitVal c).isSome) r
    | '0' :: 'o' :: r => allDigits1 (fun c => '0' ≤ c && c ≤ '7') r
    | '0' :: 'O' :: r => allDigits1 (fun c => '0' ≤ c && c ≤ '7') r
    | '0' :: 'b' :: r => allDigits1 (fun c => c == '0' || c == '1') r
    | '0' :: 'B' :: r => allDigits1 (fun c => c == '0' || c == '1') r
    | '+' :: r => unsignedNumBody r
    | '-' :: r => unsignedNumBody r
    | r => unsignedNumBody r

/-- The source regex `^\d{4}-\d{2}-\d{2}T\d{2}:\d{2}:\d{2}` (prefix
test, unanchored at the end). -/
def isoDatePat (s : String) : Bool :=
  match s.toList with
  | y1 :: y2 :: y3 :: y4 :: '-' :: m1 :: m2 :: '-' :: d1 :: d2 :: 'T' ::
      h1 :: h2 :: ':' :: n1 :: n2 :: ':' :: s1 :: s2 :: _ =>
      [y1, y2, y3, y4, m1, m2, d1, d2, h1, h2, n1, n2, s1, s2].all Char.isDigit
  | _ => false

/-- Two-digit decimal value. -/
def digit2 (a b : Char) : Nat := (a.toNat - 48) * 10 + (b.toNat - 48)

/-- Gregorian leap year. -/
def isLeap (y : Nat) : Bool :=
  (y % 4 == 0 && !(y % 100 == 0)) || y % 400 == 0

/-- Days of a month. -/
def daysInMonth (y m : Nat) : Nat :=
  if m = 2 then (if isLeap y then 29 else 28)
  else if m = 4 ∨ m = 6 ∨ m = 9 ∨ m = 11 then 30
  else 31

/-- Time-zone designator tail of the ECMAScript date-time string
format: empty, `Z`, or a `+hh:mm` / `-hh:mm` offset in range. -/
def tzTail : List Char → Bool
  | [] => true
  | ['Z'] => true
  | sgn :: h1 :: h2 :: ':' :: m1 :: m2 :: [] =>
      (sgn == '+' || sgn == '-') &&
        [h1, h2, m1, m2].all Char.isDigit &&
        decide (digit2 h1 h2 ≤ 23) && decide (digit2 m1 m2 ≤ 59)
  | _ => false

/-- Tail after the seconds: optional `.` with a nonempty digit run
(milliseconds), then the time zone; `requireZero` additionally forces
the fractional digits to be zero (used for hour 24). -/
def secTail (requireZero : Bool) (l : List Char) : Bool :=
  match l with
  | '.' :: rest =>
      let ds := rest.takeWhile Char.isDigit
      !ds.isEmpty && (!requireZero || ds.all (fun c => c == '0')) &&
        tzTail (rest.dropWhile Char.isDigit)
  | l => tzTail l

/-- Model of `!isNaN(new Date(value).getTime())` for strings that start
with the ISO prefix pattern: conformance to the ECMAScript date-time
string format with the field ranges the specification validates
(calendar day, minutes and seconds up to 59, hour up to 23 or the
24:00:00 midnight form).  Beyond this format the engine's legacy parser
is implementation-defined and outside the model. -/
def jsDateValid (s : String) : Bool :=
  match s.toList with
  | y1 :: y2 :: y3 :: y4 :: '-' :: m1 :: m2 :: '-' :: d1 :: d2 :: 'T' ::
      h1 :: h2 :: ':' :: n1 :: n2 :: ':' :: s1 :: s2 :: rest =>
      let y := digit2 y1 y2 * 100 + digit2 y3 y4
      let mo := digit2 m1 m2
      let da := digit2 d1 d2
      let ho := digit2 h1 h2
      let mi := digit2 n1 n2
      let se := digit2 s1 s2
      [y1, y2, y3, y4, m1, m2, d1, d2, h1, h2, n1, n2, s1, s2].all Char.isDigit &&
        decide (1 ≤ mo) && decide (mo ≤ 12) &&
        decide (1 ≤ da) && decide (da ≤ daysInMonth y mo) &&
        decide (mi ≤ 59) && decide (se ≤ 59) &&
        ((decide (ho ≤ 23) && secTail false rest) ||
          (decide (ho = 24) && decide (mi = 0) && decide (se = 0) &&
            secTail true rest))
  | _ => false

/-- Result kind of query-parameter coercion. -/
inductive CoercedVal where
  | boolv (b : Bool)
  | num (s : String)
  | date (s : String)
  | str (s : String)
deriving DecidableEq, Repr

/-- Model of the per-value branch of `coerceQueryParameters`
(middleware, source lines 754 to 788): literal `true`/`false` become
booleans; then a string accepted by `Number` with nonempty trimmed form
becomes a number (kept as its source text — the claims inspect only the
kind); then a string matching the ISO prefix becomes a date when
`new Date` accepts it and stays a string otherwise; everything else
stays a string. -/
def coerceValue (value : String) : CoercedVal :=
  if value = "true" then CoercedVal.boolv true
  else if value = "false" then CoercedVal.boolv false
  else if jsNumberNotNaN value = true ∧ jsTrim value ≠ "" then
    CoercedVal.num value
  else if isoDatePat value then
    (if jsDateValid value then CoercedVal.date value else CoercedVal.str value)
  else CoercedVal.str value

/-- Model of `coerceQueryParameters` over a raw string map. -/
def coerceQueryParameters (params : List (String × String)) :
    List (String × CoercedVal) :=
  params.map fun kv => (kv.1, coerceValue kv.2)

/-- Modelled from the spec: a string that parses fully as a base-10
number — optional sign, then decimal digits with at most one decimal
point (no whitespace, no radix prefixes, no Infinity). -/
def specBase10Body (l : List Char) : Bool :=
  match l with
  | '.' :: rest => allDigits1 Char.isDigit rest
  | l =>
      let ds := l.takeWhile Char.isDigit
      let r := l.dropWhile Char.isDigit
      !ds.isEmpty &&
        (match r with
         | [] => true
         | '.' :: fr => fr.all Char.isDigit
         | _ => false)

def specBase10Number (s : String) : Bool :=
  match s.toList with
  | '+' :: r => specBase10Body r
  | '-' :: r => specBase10Body r
  | r => specBase10Body r

/-- Modelled from the spec: the coercion mapping exactly as the claim
states it (boolean literals, else fully-base-10 numbers, else ISO
date-time pattern, else unchanged string). -/
def claimCoerce (value : String) : CoercedVal :=
  if value = "true" then CoercedVal.boolv true
  else if value = "false" then CoercedVal.boolv false
  else if specBase10Number value then CoercedVal.num value
  else if isoDatePat value then CoercedVal.date value
  else CoercedVal.str value

/-- The coercion mapping as amended: the numeric branch takes every
string JavaScript `Number` accepts (hexadecimal, octal, binary,
Infinity and surrounding whitespace included) with nonempty trimmed
form, and the date branch requires the date to actually parse. -/
def amendedCoerce (value : String) : CoercedVal :=
  if value = "true" then CoercedVal.boolv true
  else if value = "false" then CoercedVal.boolv false
  else if jsNumberNotNaN value = true ∧ jsTrim value ≠ "" then
    CoercedVal.num value
  else if isoDatePat value then
    (if jsDateValid value then CoercedVal.date value else CoercedVal.str value)
  else CoercedVal.str value

/-- Decimal value of a digit run. -/
def decFold (ds : List Char) : Nat :=
  ds.foldl (fun a c => a * 10 + (c.toNat - 48)) 0

/-- Hexadecimal value of a digit run. -/
def hexFold (ds : List Char) : Nat :=
  ds.foldl (fun a c => a * 16 + (hexDigitVal c).getD 0) 0

/-- Scan after the sign of a `parseInt` input: a `0x`/`0X` prefix
selects radix 16, otherwise radix 10; the longest digit run is taken
and an empty run is NaN. -/
def jsParseIntBody (sgn : Int) (l : List Char) : Option Int :=
  match l with
  | '0' :: 'x' :: r =>
      let ds := r.takeWhile fun c => (hexDigitVal c).isSome
      if ds.isEmpty then none else some (sgn * Int.ofNat (hexFold ds))
  | '0' :: 'X' :: r =>
      let ds := r.takeWhile fun c => (hexDigitVal c).isSome
      if ds.isEmpty then none else some (sgn * Int.ofNat (hexFold ds))
  | l =>
      let ds := l.takeWhile Char.isDigit
      if ds.isEmpty then none else some (sgn * Int.ofNat (decFold ds))

/-- Model of `parseInt(string)` with no radix argument: leading
whitespace skipped, optional sign, then the digit scan; `none` is NaN. -/
def jsParseIntStr (s : String) : Option Int :=
  match s.toList.dropWhile jsWhitespace with
  | '-' :: r => jsParseIntBody (-1) r
  | '+' :: r => jsParseIntBody 1 r
  | r => jsParseIntBody 1 r

/-- `parseInt(req.query[k] as string)`: an absent parameter is
`undefined`, and `parseInt(undefined)` is NaN. -/
def jsParseIntQ (o : Option String) : Option Int :=
  match o with
  | none => none
  | some s => jsParseIntStr s

/-- JavaScript `x || d` for a possibly-NaN number: NaN and 0 are falsy. -/
def jsOrInt (o : Option Int) (d : Int) : Int :=
  match o with
  | none => d
  | some n => if n = 0 then d else n

/-- JavaScript `s || d` for a possibly-undefined string: the empty
string is falsy. -/
def jsOrStr (o : Option String) (d : String) : String :=
  match o with
  | none => d
  | some s => if s = "" then d else s

/-- Pagination options as the controller builds them: every member is
present (nothing is left to the repository defaults). -/
structure CtrlPagination where
  skip : Int
  limit : Int
  sortBy : String
  sortOrder : Int
deriving DecidableEq, Repr

/-- Model of the pagination extraction and validation inside
`CrudController.find` (source lines 417 to 449): `skip` defaults to 0,
`limit` defaults to 50 and is capped by `Math.min(limit, 100)`,
`sortBy` defaults to `createdAt`, `sortOrder` is `-1` exactly for the
literal `desc`; then a negative skip or a non-positive limit raises a
ValidationError. -/
def controllerFindOptions (query : List (String × String)) :
    Except AppErr CtrlPagination :=
  let skip := jsOrInt (jsParseIntQ (List.lookup "skip" query)) 0
  let limit := min (jsOrInt (jsParseIntQ (List.lookup "limit" query)) 50) 100
  let sortBy := jsOrStr (List.lookup "sortBy" query) "createdAt"
  let sortOrder : Int :=
    if List.lookup "sortOrder" query = some "desc" then -1 else 1
  if skip < 0 then
    Except.error (mkValidationErr "Skip parameter must be non-negative"
      "skip" ["Skip value cannot be negative"])
  else if limit ≤ 0 then
    Except.error (mkValidationErr "Limit parameter must be positive"
      "limit" ["Limit value must be greater than 0"])
  else
    Except.ok ⟨skip, limit, sortBy, sortOrder⟩

/-- The options object the controller passes to the service and on to
the repository: every member explicitly set. -/
def toRepoOptions (c : CtrlPagination) : PaginationOptions :=
  ⟨some c.skip.toNat, some c.limit.toNat, some c.sortBy, some c.sortOrder⟩

/-- One repository mutation: a create or an update, as executed through
the repository methods. -/
inductive RepoOp where
  | create (data : List (String × Val))
  | update (id : String) (data : List (String × Val))
deriving DecidableEq, Repr

/-- Execute one operation, keeping the resulting store state (failed
operations leave the store untouched). -/
def stepOp (uniqueFields : List String) (st : RepoState) (op : RepoOp) :
    RepoState :=
  match op with
  | RepoOp.create data => (repoCreate uniqueFields st data).2
  | RepoOp.update id data =>
      match repoUpdate uniqueFields st id data with
      | Except.ok r => r.2
      | Except.error _ => st

/-- Execute a sequence of operations from the empty collection. -/
def execOps (uniqueFields : List String) (ops : List RepoOp) : RepoState :=
  ops.foldl (stepOp uniqueFields) emptyRepo

/-- Well-formedness of a store state: distinct identifiers, all below
the fresh-identifier counter. -/
def RepoWf (st : RepoState) : Prop :=
  (st.docs.map fun d => d.id).Nodup ∧ ∀ d ∈ st.docs, d.id < st.nextId

instance : DecidablePred RepoWf := fun st => by
  unfold RepoWf
  infer_instance

/-- The uniqueness invariant of the specification: no two live
documents (distinct identifiers) share a defined value on any field
declared unique. -/
def UniqueInv (uniqueFields : List String) (docs : List MDoc) : Prop :=
  ∀ d1 ∈ docs, ∀ d2 ∈ docs, ∀ f ∈ uniqueFields,
    d1.id ≠ d2.id →
      getField d1.fields f = none ∨
        getField d1.fields f ≠ getField d2.fields f

instance (uniqueFields : List String) (docs : List MDoc) :
    Decidable (UniqueInv uniqueFields docs) := by
  unfold UniqueInv
  infer_instance

theorem validateUnique_none_spec {uniqueFields : List String}
    {docs : List MDoc} {data : List (String × Val)}
    (h : validateUniqueConstraints uniqueFields docs data none = true)
    {f : String} (hf : f ∈ uniqueFields) {v : Val}
    (hv : List.lookup f data = some v) :
    ∀ d ∈ docs, getField d.fields f ≠ some v := by
  intro d hd hcontra
  have hp := List.all_eq_true.mp h f hf
  rw [hv] at hp
  simp only [Bool.not_eq_true'] at hp
  have : (docs.any fun d =>
      getField d.fields f == some v && true) = true :=
    List.any_eq_true.mpr ⟨d, hd, by simp [hcontra]⟩
  rw [this] at hp
  exact Bool.noConfusion hp

theorem validateUnique_some_spec {uniqueFields : List String}
    {docs : List MDoc} {data : List (String × Val)} {e : Nat}
    (h : validateUniqueConstraints uniqueFields docs data (some e) = true)
    {f : String} (hf : f ∈ uniqueFields) {v : Val}
    (hv : List.lookup f data = some v) :
    ∀ d ∈ docs, d.id ≠ e → getField d.fields f ≠ some v := by
  intro d hd hde hcontra
  have hp := List.all_eq_true.mp h f hf
  rw [hv] at hp
  simp only [Bool.not_eq_true'] at hp
  have : (docs.any fun d =>
      getField d.fields f == some v && !(d.id == e)) = true :=
    List.any_eq_true.mpr ⟨d, hd, by simp [hcontra, hde]⟩
  rw [this] at hp
  exact Bool.noConfusion hp

theorem validateUnique_some_intro {uniqueFields : List String}
    {docs : List MDoc} {data : List (String × Val)} {e : Nat}
    (h : ∀ f ∈ uniqueFields, ∀ v, List.lookup f data = some v →
      ∀ d ∈ docs, getField d.fields f = some v → d.id = e) :
    validateUniqueConstraints uniqueFields docs data (some e) = true := by
  apply List.all_eq_true.mpr
  intro f hf
  cases hlk : List.lookup f data with
  | none => simp [hlk]
  | some v =>
      simp only [hlk, Bool.not_eq_true']
      apply List.any_eq_false.mpr
      intro d hd hcontra
      simp only [Bool.and_eq_true, beq_iff_eq, Bool.not_eq_true'] at hcontra
      obtain ⟨hfv, hne⟩ := hcontra
      have := h f hf v hlk d hd hfv
      simp [this] at hne

theorem updateFirst_map_id (docs : List MDoc) (oid : Nat)
    (data : List (String × Val)) :
    ((updateFirst docs oid data).2.map fun d => d.id) =
      docs.map fun d => d.id := by
  induction docs with
  | nil => rfl
  | cons d rest ih =>
      by_cases h : d.id = oid
      · simp [updateFirst, h, mkUpd]
      · simp [updateFirst, beq_eq_false_iff_ne.mpr h, ih]

theorem updateFirst_map_createdAt (docs : List MDoc) (oid : Nat)
    (data : List (String × Val)) :
    ((updateFirst docs oid data).2.map fun d => d.createdAt) =
      docs.map fun d => d.createdAt := by
  induction docs with
  | nil => rfl
  | cons d rest ih =>
      by_cases h : d.id = oid
      · simp [updateFirst, h, mkUpd]
      · simp [updateFirst, beq_eq_false_iff_ne.mpr h, ih]

theorem updateFirst_mem {docs : List MDoc} {oid : Nat}
    {data : List (String × Val)} {d' : MDoc}
    (h : d' ∈ (updateFirst docs oid data).2) :
    d' ∈ docs ∨ ∃ d ∈ docs, d.id = oid ∧ d' = mkUpd data d := by
  induction docs with
  | nil => cases h
  | cons d rest ih =>
      by_cases hd : d.id = oid
      · simp only [updateFirst, beq_iff_eq.mpr hd, if_true] at h
        rcases List.mem_cons.mp h with h1 | h1
        · exact Or.inr ⟨d, List.mem_cons_self d rest, hd, h1⟩
        · exact Or.inl (List.mem_cons_of_mem d h1)
      · simp only [updateFirst, beq_eq_false_iff_ne.mpr hd, Bool.false_eq_true,
          if_false] at h
        rcases List.mem_cons.mp h with h1 | h1
        · exact Or.inl (h1 ▸ List.mem_cons_self d rest)
        · rcases ih h1 with h2 | ⟨e, he, heid, hupd⟩
          · exact Or.inl (List.mem_cons_of_mem d h2)
          · exact Or.inr ⟨e, List.mem_cons_of_mem d he, heid, hupd⟩

theorem updateFirst_fst_eq_some {docs : List MDoc} {oid : Nat}
    {data : List (String × Val)} {d' : MDoc}
    (h : (updateFirst docs oid data).1 = some d') :
    ∃ d ∈ docs, d.id = oid ∧ d' = mkUpd data d := by
  induction docs with
  | nil => cases h
  | cons d rest ih =>
      by_cases hd : d.id = oid
      · simp only [updateFirst, beq_iff_eq.mpr hd, if_true,
          Option.some.injEq] at h
        exact ⟨d, List.mem_cons_self d rest, hd, h.symm⟩
      · simp only [updateFirst, beq_eq_false_iff_ne.mpr hd, Bool.false_eq_true,
          if_false] at h
        rcases ih h with ⟨e, he, heid, hupd⟩
        exact ⟨e, List.mem_cons_of_mem d he, heid, hupd⟩

theorem updateFirst_fst_isSome {docs : List MDoc} {oid : Nat}
    (data : List (String × Val)) {d : MDoc} (hd : d ∈ docs)
    (hid : d.id = oid) :
    ∃ d', (updateFirst docs oid data).1 = some d' := by
  induction docs with
  | nil => cases hd
  | cons e rest ih =>
      by_cases he : e.id = oid
      · exact ⟨mkUpd data e, by simp [updateFirst, beq_iff_eq.mpr he]⟩
      · rcases List.mem_cons.mp hd with h1 | h1
        · exact absurd (h1 ▸ hid) he
        · rcases ih h1 with ⟨d', hd'⟩
          exact ⟨d', by simp [updateFirst, beq_eq_false_iff_ne.mpr he, hd']⟩

theorem mkUpd_id (data : List (String × Val)) (d : MDoc) :
    (mkUpd data d).id = d.id := rfl

theorem mkUpd_createdAt (data : List (String × Val)) (d : MDoc) :
    (mkUpd data d).createdAt = d.createdAt := rfl

theorem stepOp_preserves (uniqueFields : List String) (st : RepoState)
    (op : RepoOp) (hwf : RepoWf st) (hinv : UniqueInv uniqueFields st.docs) :
    RepoWf (stepOp uniqueFields st op) ∧
      UniqueInv uniqueFields (stepOp uniqueFields st op).docs := by
  cases op with
  | create data =>
      by_cases hval :
          validateUniqueConstraints uniqueFields st.docs data none = true
      · have hstep : stepOp uniqueFields st (RepoOp.create data) =
            ⟨st.docs ++ [⟨st.nextId, st.now, data⟩], st.nextId + 1, st.now + 1⟩ := by
          simp [stepOp, repoCreate, hval]
        rw [hstep]
        constructor
        · constructor
          · rw [List.map_append]
            rw [List.nodup_append]
            refine ⟨hwf.1, List.nodup_singleton _, ?_⟩
            intro x hx hx1
            simp only [List.map, List.mem_singleton] at hx1
            rcases List.mem_map.mp hx with ⟨d, hd, hdx⟩
            have := hwf.2 d hd
            omega
          · intro d hd
            show d.id < st.nextId + 1
            rcases List.mem_append.mp hd with h1 | h1
            · have := hwf.2 d h1
              omega
            · simp only [List.mem_singleton] at h1
              rw [h1]
              show st.nextId < st.nextId + 1
              omega
        · intro d1 h1 d2 h2 f hf hne
          rcases List.mem_append.mp h1 with h1o | h1n
          · rcases List.mem_append.mp h2 with h2o | h2n
            · exact hinv d1 h1o d2 h2o f hf hne
            · simp only [List.mem_singleton] at h2n
              by_cases hget : getField d1.fields f = none
              · exact Or.inl hget
              · refine Or.inr ?_
                rw [h2n]
                show getField d1.fields f ≠ List.lookup f data
                cases hlk : List.lookup f data with
                | none => exact fun h => hget h
                | some v =>
                    have hspec := validateUnique_none_spec hval hf hlk d1 h1o
                    exact hspec
          · simp only [List.mem_singleton] at h1n
            rcases List.mem_append.mp h2 with h2o | h2n
            · rw [h1n]
              show List.lookup f data = none ∨
                List.lookup f data ≠ getField d2.fields f
              cases hlk : List.lookup f data with
              | none => exact Or.inl rfl
              | some v =>
                  refine Or.inr ?_
                  have hspec := validateUnique_none_spec hval hf hlk d2 h2o
                  exact fun h => hspec h.symm
            · simp only [List.mem_singleton] at h2n
              rw [h1n, h2n] at hne
              exact absurd rfl hne
      · have hstep : stepOp uniqueFields st (RepoOp.create data) = st := by
          simp [stepOp, repoCreate, hval]
        rw [hstep]
        exact ⟨hwf, hinv⟩
  | update id data =>
      cases hparse : parseObjectId id with
      | none =>
          have hstep : stepOp uniqueFields st (RepoOp.update id data) = st := by
            simp [stepOp, repoUpdate, hparse]
          rw [hstep]
          exact ⟨hwf, hinv⟩
      | some oid =>
          by_cases hval :
              validateUniqueConstraints uniqueFields st.docs data (some oid) = true
          · have hstep : stepOp uniqueFields st (RepoOp.update id data) =
                ⟨(updateFirst st.docs oid data).2, st.nextId, st.now⟩ := by
              simp [stepOp, repoUpdate, hparse, hval]
            rw [hstep]
            constructor
            · constructor
              · show ((updateFirst st.docs oid data).2.map fun d => d.id).Nodup
                rw [updateFirst_map_id]
                exact hwf.1
              · intro d hd
                rcases updateFirst_mem hd with hold | ⟨e, he, heid, hupd⟩
                · exact hwf.2 d hold
                · rw [hupd, mkUpd_id]
                  exact hwf.2 e he
            · intro d1 h1 d2 h2 f hf hne
              rcases updateFirst_mem h1 with h1o | ⟨e1, he1, he1id, h1u⟩
              · rcases updateFirst_mem h2 with h2o | ⟨e2, he2, he2id, h2u⟩
                · exact hinv d1 h1o d2 h2o f hf hne
                · by_cases hget : getField d1.fields f = none
                  · exact Or.inl hget
                  · refine Or.inr ?_
                    have hd2id : d2.id = oid := by rw [h2u, mkUpd_id, he2id]
                    have hd1ne : d1.id ≠ oid := fun h => hne (h.trans hd2id.symm)
                    rw [h2u]
                    show getField d1.fields f ≠
                      getField (docSet e2.fields data) f
                    rw [getField_docSet]
                    cases hlk : List.lookup f data with
                    | none =>
                        rcases hinv d1 h1o e2 he2 f hf
                            (by rw [he2id]; exact hd1ne) with h | h
                        · exact absurd h hget
                        · exact h
                    | some v =>
                        exact validateUnique_some_spec hval hf hlk d1 h1o hd1ne
              · rcases updateFirst_mem h2 with h2o | ⟨e2, he2, he2id, h2u⟩
                · have hd1id : d1.id = oid := by rw [h1u, mkUpd_id, he1id]
                  have hd2ne : d2.id ≠ oid := fun h => hne (hd1id.trans h.symm)
                  rw [h1u]
                  show getField (docSet e1.fields data) f = none ∨
                    getField (docSet e1.fields data) f ≠ getField d2.fields f
                  rw [getField_docSet]
                  cases hlk : List.lookup f data with
                  | none =>
                      rcases hinv e1 he1 d2 h2o f hf
                          (by rw [he1id]; exact fun h => hd2ne h.symm) with h | h
                      · exact Or.inl h
                      · exact Or.inr h
                  | some v =>
                      refine Or.inr ?_
                      have hspec := validateUnique_some_spec hval hf hlk d2 h2o hd2ne
                      exact fun h => hspec h.symm
                · have hd1id : d1.id = oid := by rw [h1u, mkUpd_id, he1id]
                  have hd2id : d2.id = oid := by rw [h2u, mkUpd_id, he2id]
                  exact absurd (hd1id.trans hd2id.symm) hne
          · have hstep : stepOp uniqueFields st (RepoOp.update id data) = st := by
              simp [stepOp, repoUpdate, hparse, hval]
            rw [hstep]
            exact ⟨hwf, hinv⟩

theorem foldl_stepOp_preserves (uniqueFields : List String)
    (ops : List RepoOp) :
    ∀ st, RepoWf st → UniqueInv uniqueFields st.docs →
      RepoWf (ops.foldl (stepOp uniqueFields) st) ∧
        UniqueInv uniqueFields (ops.foldl (stepOp uniqueFields) st).docs := by
  induction ops with
  | nil => exact fun st h1 h2 => ⟨h1, h2⟩
  | cons op rest ih =>
      intro st h1 h2
      have hstep := stepOp_preserves uniqueFields st op h1 h2
      exact ih (stepOp uniqueFields st op) hstep.1 hstep.2

theorem emptyRepo_wf : RepoWf emptyRepo := by
  constructor
  · exact List.nodup_nil
  · intro d hd
    cases hd

theorem emptyRepo_inv (uniqueFields : List String) :
    UniqueInv uniqueFields emptyRepo.docs := by
  intro d1 h1
  cases h1

/-- Unique-field configuration of the running example (`uniqueFields:
["name"]`). -/
def demoUnique : List String := ["name"]

/-- First stored example document. -/
def demoD0 : MDoc :=
  ⟨0, 0, [("name", Val.vStr "Laptop"), ("price", Val.vInt 1200)]⟩

/-- Second stored example document. -/
def demoD1 : MDoc :=
  ⟨1, 1, [("name", Val.vStr "Mouse"), ("price", Val.vInt 25)]⟩

/-- Example store holding the two documents. -/
def demoSt2 : RepoState := ⟨[demoD0, demoD1], 2, 2⟩

/-- The example store is reachable: creating the two documents from the
empty collection produces exactly it. -/
theorem demoSt2_reachable :
    execOps demoUnique
      [RepoOp.create [("name", Val.vStr "Laptop"), ("price", Val.vInt 1200)],
       RepoOp.create [("name", Val.vStr "Mouse"), ("price", Val.vInt 25)]] =
      demoSt2 := by decide

/-- C1: the specification states that Service-level create returns the
null-equivalent duplicate sentinel and never throws, with only other
repository failures propagating.  The code does the opposite: when the
repository returns the duplicate sentinel (`null`), `CrudService.create`
throws an `ApplicationError` of type DATABASE_ERROR with status 500 and
message "Failed to create entity", so a duplicate is reported as an
infrastructure failure.  Evaluated here on a concrete duplicate
create. -/
theorem c1_service_create_throws_on_duplicate :
    repoCreate demoUnique demoSt2 [("name", Val.vStr "Laptop")] =
      (none, demoSt2) ∧
    serviceCreate demoUnique demoSt2 [("name", Val.vStr "Laptop")] =
      Except.error ⟨ErrKind.database, "Failed to create entity", 500, none⟩ := by
  exact ⟨rfl, rfl⟩

/-- C2: for every sequence of create and update operations executed
through the repository (creates pre-checking every unique field with a
defined value, updates pre-checking with the target excluded), at no
point do two stored documents share a defined value on a field of the
unique-field set: the invariant holds after every prefix of the
sequence. -/
theorem c2_uniqueness_invariant (uniqueFields : List String)
    (ops : List RepoOp) (n : Nat) :
    UniqueInv uniqueFields (execOps uniqueFields (ops.take n)).docs :=
  (foldl_stepOp_preserves uniqueFields (ops.take n) emptyRepo emptyRepo_wf
    (emptyRepo_inv uniqueFields)).2

/-- C4 counterexample: the string `0x10` does not parse as a base-10
number and is not a date pattern, so by the claim it must stay a
string; the code coerces it to a number, because `Number("0x10")` reads
it as hexadecimal 16. -/
theorem c4_counterexample :
    coerceValue "0x10" = CoercedVal.num "0x10" ∧
    specBase10Number "0x10" = false ∧
    claimCoerce "0x10" = CoercedVal.str "0x10" ∧
    coerceValue "0x10" ≠ claimCoerce "0x10" := by decide

/-- C4 as amended: `true`/`false` become booleans; otherwise a string
accepted by JavaScript number conversion (hexadecimal, octal, binary,
Infinity and surrounding whitespace included) whose trimmed form is
nonempty becomes a number; otherwise a string starting with the
ISO-8601 date-time pattern becomes a date when it parses as a valid
date and stays a string otherwise; every other string, the empty string
included, stays a string (never coerced to 0). -/
theorem c4_coercion_amended (s : String) :
    coerceValue s = amendedCoerce s ∧
    coerceValue "" = CoercedVal.str "" ∧
    coerceQueryParameters
        [("price", "10"), ("inStock", "true"), ("name", "x")] =
      [("price", CoercedVal.num "10"), ("inStock", CoercedVal.boolv true),
       ("name", CoercedVal.str "x")] := by
  refine ⟨rfl, by decide, by decide⟩

/-- C5: for every string that is not a well-formed ObjectId, the
repository read fails with the ValidationError (status 400) without
consulting the store — the result is the same for every store state —
and never returns the not-found sentinel. -/
theorem c5_read_malformed_id (st : RepoState) (s : String)
    (h : parseObjectId s = none) :
    repoRead st s = Except.error invalidIdErr ∧
    invalidIdErr.kind = ErrKind.validation ∧
    invalidIdErr.statusCode = 400 ∧
    (∀ r, repoRead st s ≠ Except.ok r) ∧
    (∀ st2, repoRead st s = repoRead st2 s) := by
  have h1 : repoRead st s = Except.error invalidIdErr := by
    simp [repoRead, h]
  refine ⟨h1, rfl, rfl, ?_, ?_⟩
  · intro r hr
    rw [h1] at hr
    cases hr
  · intro st2
    rw [h1]
    simp [repoRead, h]

/-- C5 witness: the malformed identifier `not-a-valid-objectid` on the
example store. -/
theorem c5_read_malformed_id_witness :
    parseObjectId "not-a-valid-objectid" = none ∧
    (repoRead demoSt2 "not-a-valid-objectid" = Except.error invalidIdErr ∧
     invalidIdErr.kind = ErrKind.validation ∧
     invalidIdErr.statusCode = 400 ∧
     (∀ r, repoRead demoSt2 "not-a-valid-objectid" ≠ Except.ok r) ∧
     (∀ st2, repoRead demoSt2 "not-a-valid-objectid" = repoRead st2 "not-a-valid-objectid")) :=
  ⟨by decide, c5_read_malformed_id demoSt2 "not-a-valid-objectid" (by decide)⟩

/-- C8: the specification states that infrastructure failures never
leak the store's native error text into the response body.  The code
does leak it: the repository catch block copies the native message into
`metadata.originalError`, and the global error handler attaches the
metadata of every `ApplicationError` verbatim as `details` of the HTTP
response.  Evaluated on a concrete native failure text. -/
theorem c8_database_error_leaks_native_text :
    (createMongoCatch "products"
        (CaughtErr.generic "connection reset by peer at shard0")).kind =
      ErrKind.database ∧
    (createMongoCatch "products"
        (CaughtErr.generic "connection reset by peer at shard0")).message =
      "Database operation failed during entity creation" ∧
    leaksText
      (globalErrorHandler (ThrownErr.app (createMongoCatch "products"
        (CaughtErr.generic "connection reset by peer at shard0")))).2
      "connection reset by peer at shard0" = true := by
  exact ⟨rfl, rfl, by decide⟩

/-- C3: for any store, filter and options with a positive applied limit
(the PaginationWindow of the data model requires `limit > 0`), find
reports `total` as the count of matching documents, `hasNext = (skip +
limit < total)`, `hasPrevious = (skip > 0)`, echoes skip and limit, and
returns exactly `min limit (total - skip)` items; unspecified options
equal the explicit defaults skip 0, limit 20, sorted by `createdAt`
descending. -/
theorem c3_find_pagination (st : RepoState) (q : List (String × Val))
    (opts : PaginationOptions) (h : 0 < opts.limit.getD 20) :
    (repoFind st q opts).total = (st.docs.filter (docMatches q)).length ∧
    (repoFind st q opts).hasNext =
      decide (opts.skip.getD 0 + opts.limit.getD 20 <
        (st.docs.filter (docMatches q)).length) ∧
    (repoFind st q opts).hasPrevious = decide (0 < opts.skip.getD 0) ∧
    (repoFind st q opts).skip = opts.skip.getD 0 ∧
    (repoFind st q opts).limit = opts.limit.getD 20 ∧
    (repoFind st q opts).data.length =
      min (opts.limit.getD 20)
        ((st.docs.filter (docMatches q)).length - opts.skip.getD 0) ∧
    repoFind st q ⟨none, none, none, none⟩ =
      repoFind st q ⟨some 0, some 20, some "createdAt", some (-1)⟩ := by
  refine ⟨rfl, rfl, rfl, rfl, rfl, ?_, rfl⟩
  have hne : opts.limit.getD 20 ≠ 0 := Nat.pos_iff_ne_zero.mp h
  simp [repoFind, hne, List.length_take, List.length_drop,
    List.length_mergeSort]

/-- C3 witness: the example store with two documents, skip 1 and
limit 2: total 2, one returned item, no next page, a previous page. -/
theorem c3_find_pagination_witness :
    0 < ((⟨some 1, some 2, none, none⟩ : PaginationOptions).limit.getD 20) ∧
    ((repoFind demoSt2 [] ⟨some 1, some 2, none, none⟩).total =
        (demoSt2.docs.filter (docMatches [])).length ∧
     (repoFind demoSt2 [] ⟨some 1, some 2, none, none⟩).hasNext =
        decide ((⟨some 1, some 2, none, none⟩ : PaginationOptions).skip.getD 0 +
          (⟨some 1, some 2, none, none⟩ : PaginationOptions).limit.getD 20 <
          (demoSt2.docs.filter (docMatches [])).length) ∧
     (repoFind demoSt2 [] ⟨some 1, some 2, none, none⟩).hasPrevious =
        decide (0 < (⟨some 1, some 2, none, none⟩ : PaginationOptions).skip.getD 0) ∧
     (repoFind demoSt2 [] ⟨some 1, some 2, none, none⟩).skip =
        (⟨some 1, some 2, none, none⟩ : PaginationOptions).skip.getD 0 ∧
     (repoFind demoSt2 [] ⟨some 1, some 2, none, none⟩).limit =
        (⟨some 1, some 2, none, none⟩ : PaginationOptions).limit.getD 20 ∧
     (repoFind demoSt2 [] ⟨some 1, some 2, none, none⟩).data.length =
        min ((⟨some 1, some 2, none, none⟩ : PaginationOptions).limit.getD 20)
          ((demoSt2.docs.filter (docMatches [])).length -
            (⟨some 1, some 2, none, none⟩ : PaginationOptions).skip.getD 0) ∧
     repoFind demoSt2 [] ⟨none, none, none, none⟩ =
        repoFind demoSt2 [] ⟨some 0, some 20, some "createdAt", some (-1)⟩) :=
  ⟨by decide, c3_find_pagination demoSt2 [] ⟨some 1, some 2, none, none⟩ (by decide)⟩

/-- C6: an update whose unique pre-check (scoped to exclude the target)
detects a collision raises the DUPLICATE_ERROR (409), never a sentinel;
the storage-layer duplicate rejection (code 11000) caught during the
write is likewise translated to DUPLICATE_ERROR 409; and updating a
well-formed store so that a document keeps its own unique value raises
nothing and succeeds. -/
theorem c6_update_duplicate_behavior (uniqueFields : List String) :
    (∀ (st : RepoState) (id : String) (data : List (String × Val)) (oid : Nat),
      parseObjectId id = some oid →
      validateUniqueConstraints uniqueFields st.docs data (some oid) = false →
      repoUpdate uniqueFields st id data =
        Except.error (updatePrecheckDupErr id data uniqueFields) ∧
      (updatePrecheckDupErr id data uniqueFields).kind = ErrKind.duplicate ∧
      (updatePrecheckDupErr id data uniqueFields).statusCode = 409) ∧
    (∀ (collectionName entityId msg : String),
      (updateMongoCatch collectionName entityId
          (CaughtErr.mongoServer 11000 msg)).kind = ErrKind.duplicate ∧
      (updateMongoCatch collectionName entityId
          (CaughtErr.mongoServer 11000 msg)).statusCode = 409) ∧
    (∀ (st : RepoState) (id : String) (d : MDoc) (f : String) (v : Val),
      RepoWf st → UniqueInv uniqueFields st.docs →
      d ∈ st.docs → parseObjectId id = some d.id →
      getField d.fields f = some v →
      ∃ d' st', repoUpdate uniqueFields st id [(f, v)] =
        Except.ok (some d', st')) := by
  refine ⟨?_, ?_, ?_⟩
  · intro st id data oid hparse hval
    refine ⟨?_, rfl, rfl⟩
    simp [repoUpdate, hparse, hval]
  · intro collectionName entityId msg
    exact ⟨rfl, rfl⟩
  · intro st id d f v hwf hinv hd hparse hget
    have hval : validateUniqueConstraints uniqueFields st.docs [(f, v)]
        (some d.id) = true := by
      apply validateUnique_some_intro
      intro g hg w hlkp e he hgw
      have hgf : g = f ∧ w = v := by
        by_cases hgf : g = f
        · subst hgf
          have : List.lookup g [(g, v)] = some v := by
            simp [List.lookup]
          rw [this] at hlkp
          exact ⟨rfl, (Option.some.injEq _ _ ▸ hlkp).symm⟩
        · have : List.lookup g [(f, v)] = none := by
            simp [List.lookup, beq_eq_false_iff_ne.mpr hgf]
          rw [this] at hlkp
          cases hlkp
      obtain ⟨hgf2, hwv⟩ := hgf
      subst hgf2
      subst hwv
      by_contra hne
      rcases hinv e he d hd g hg hne with hnone | hdiff
      · rw [hgw] at hnone
        cases hnone
      · rw [hgw, hget] at hdiff
        exact hdiff rfl
    rcases updateFirst_fst_isSome [(f, v)] hd rfl with ⟨d', hd'⟩
    refine ⟨d', ⟨(updateFirst st.docs d.id [(f, v)]).2, st.nextId, st.now⟩, ?_⟩
    simp [repoUpdate, hparse, hval, hd']

/-- C6 witness: on the example store, moving the Mouse document onto the
name `Laptop` raises the duplicate error; the 11000 translation names a
duplicate; rewriting the Laptop document with its own name succeeds. -/
theorem c6_update_duplicate_behavior_witness :
    (repoUpdate demoUnique demoSt2 "000000000000000000000001"
        [("name", Val.vStr "Laptop")] =
      Except.error (updatePrecheckDupErr "000000000000000000000001"
        [("name", Val.vStr "Laptop")] demoUnique) ∧
     (updatePrecheckDupErr "000000000000000000000001"
        [("name", Val.vStr "Laptop")] demoUnique).kind = ErrKind.duplicate ∧
     (updatePrecheckDupErr "000000000000000000000001"
        [("name", Val.vStr "Laptop")] demoUnique).statusCode = 409) ∧
    ((updateMongoCatch "products" "abc"
        (CaughtErr.mongoServer 11000
          "E11000 duplicate key error index: idx_unique_name dup key")).kind =
      ErrKind.duplicate ∧
     (updateMongoCatch "products" "abc"
        (CaughtErr.mongoServer 11000
          "E11000 duplicate key error index: idx_unique_name dup key")).statusCode =
      409) ∧
    (∃ d' st', repoUpdate demoUnique demoSt2 "000000000000000000000000"
        [("name", Val.vStr "Laptop")] = Except.ok (some d', st')) :=
  ⟨(c6_update_duplicate_behavior demoUnique).1 demoSt2
      "000000000000000000000001" [("name", Val.vStr "Laptop")] 1
      (by decide) (by decide),
   (c6_update_duplicate_behavior demoUnique).2.1 "products" "abc"
      "E11000 duplicate key error index: idx_unique_name dup key",
   (c6_update_duplicate_behavior demoUnique).2.2 demoSt2
      "000000000000000000000000" demoD0 "name" (Val.vStr "Laptop")
      (by decide) (by decide) (by decide) (by decide) (by decide)⟩

/-- C7: a successful update leaves every field not named in the partial
payload at its prior value on the returned document, never mutates the
identifier or the creation timestamp, and preserves the identifiers and
creation timestamps of the whole store. -/
theorem c7_update_frame (uniqueFields : List String) (st : RepoState)
    (id : String) (data : List (String × Val)) (d d' : MDoc)
    (st' : RepoState) (hwf : RepoWf st) (hd : d ∈ st.docs)
    (hid : parseObjectId id = some d.id)
    (hup : repoUpdate uniqueFields st id data = Except.ok (some d', st')) :
    d'.id = d.id ∧ d'.createdAt = d.createdAt ∧
    (∀ f, f ∉ data.map Prod.fst →
      getField d'.fields f = getField d.fields f) ∧
    (st'.docs.map fun e => e.id) = (st.docs.map fun e => e.id) ∧
    (st'.docs.map fun e => e.createdAt) = (st.docs.map fun e => e.createdAt) := by
  by_cases hval : validateUniqueConstraints uniqueFields st.docs data
      (some d.id) = true
  · simp only [repoUpdate, hid, hval, if_true, Except.ok.injEq,
      Prod.mk.injEq] at hup
    obtain ⟨hfst, hsnd⟩ := hup
    rcases updateFirst_fst_eq_some hfst with ⟨e, he, heid, hupd⟩
    have hed : e = d := List.inj_on_of_nodup_map hwf.1 he hd heid
    subst hed
    refine ⟨by rw [hupd, mkUpd_id], by rw [hupd, mkUpd_createdAt], ?_, ?_, ?_⟩
    · intro f hf
      rw [hupd]
      show getField (docSet e.fields data) f = getField e.fields f
      exact getField_docSet_of_none e.fields (lookup_eq_none_of_not_mem_keys hf)
    · rw [← hsnd]
      exact updateFirst_map_id st.docs e.id data
    · rw [← hsnd]
      exact updateFirst_map_createdAt st.docs e.id data
  · simp [repoUpdate, hid, hval] at hup

/-- C7 witness: updating the Laptop document's price to 999 keeps its
name, identifier and creation timestamp. -/
theorem c7_update_frame_witness :
    RepoWf demoSt2 ∧ demoD0 ∈ demoSt2.docs ∧
    parseObjectId "000000000000000000000000" = some demoD0.id ∧
    repoUpdate demoUnique demoSt2 "000000000000000000000000"
        [("price", Val.vInt 999)] =
      Except.ok (some ⟨0, 0, [("name", Val.vStr "Laptop"), ("price", Val.vInt 999)]⟩,
        ⟨[⟨0, 0, [("name", Val.vStr "Laptop"), ("price", Val.vInt 999)]⟩, demoD1], 2, 2⟩) ∧
    ((⟨0, 0, [("name", Val.vStr "Laptop"), ("price", Val.vInt 999)]⟩ : MDoc).id =
        demoD0.id ∧
     (⟨0, 0, [("name", Val.vStr "Laptop"), ("price", Val.vInt 999)]⟩ : MDoc).createdAt =
        demoD0.createdAt ∧
     (∀ f, f ∉ ([("price", Val.vInt 999)].map Prod.fst) →
       getField (⟨0, 0, [("name", Val.vStr "Laptop"), ("price", Val.vInt 999)]⟩ : MDoc).fields f =
         getField demoD0.fields f) ∧
     ((⟨[⟨0, 0, [("name", Val.vStr "Laptop"), ("price", Val.vInt 999)]⟩, demoD1], 2, 2⟩ : RepoState).docs.map fun e => e.id) =
        (demoSt2.docs.map fun e => e.id) ∧
     ((⟨[⟨0, 0, [("name", Val.vStr "Laptop"), ("price", Val.vInt 999)]⟩, demoD1], 2, 2⟩ : RepoState).docs.map fun e => e.createdAt) =
        (demoSt2.docs.map fun e => e.createdAt)) :=
  ⟨by decide, by decide, by decide, rfl,
   c7_update_frame demoUnique demoSt2 "000000000000000000000000"
     [("price", Val.vInt 999)] demoD0
     ⟨0, 0, [("name", Val.vStr "Laptop"), ("price", Val.vInt 999)]⟩
     ⟨[⟨0, 0, [("name", Val.vStr "Laptop"), ("price", Val.vInt 999)]⟩, demoD1], 2, 2⟩
     (by decide) (by decide) (by decide) rfl⟩


theorem contains_true_of_mem {l : List String} {a : String} (h : a ∈ l) :
    l.contains a = true :=
  List.elem_iff.mpr h

theorem mem_of_contains_true {l : List String} {a : String}
    (h : l.contains a = true) : a ∈ l :=
  List.elem_iff.mp h

theorem not_mem_of_contains_false {l : List String} {a : String}
    (h : l.contains a = false) : a ∉ l := by
  intro hmem
  rw [contains_true_of_mem hmem] at h
  exact Bool.noConfusion h

theorem idxName_inj : Function.Injective idxName := by
  intro a b h
  have h2 := congrArg String.data h
  unfold idxName at h2
  rw [String.data_append, String.data_append] at h2
  exact String.ext (List.append_cancel_left h2)

theorem mongoCreateIndexes_pos {d : DbState} {names : List String}
    (h : (names.any fun n => d.indexNames.contains n) = true) :
    mongoCreateIndexes d names = Except.error "index already exists" := by
  unfold mongoCreateIndexes
  rw [if_pos h]

theorem mongoCreateIndexes_neg {d : DbState} {names : List String}
    (h : (names.any fun n => d.indexNames.contains n) = false) :
    mongoCreateIndexes d names =
      Except.ok { d with indexNames := d.indexNames ++ names } := by
  have hne : ¬(names.any fun n => d.indexNames.contains n) = true := by
    rw [h]
    exact fun hh => Bool.noConfusion hh
  unfold mongoCreateIndexes
  rw [if_neg hne]

theorem repoCreateIndexes_short {fs : List String} {d : DbState}
    (hlen : ¬0 < (fs.map idxName).length) :
    repoCreateIndexes (some fs) d = d := by
  show (if 0 < (fs.map idxName).length then
      match mongoCreateIndexes d (fs.map idxName) with
      | Except.ok db2 => db2
      | Except.error _ => d
    else d) = d
  rw [if_neg hlen]

theorem repoCreateIndexes_some_pos {fs : List String} {d : DbState}
    (hlen : 0 < (fs.map idxName).length)
    (h : ((fs.map idxName).any fun n => d.indexNames.contains n) = true) :
    repoCreateIndexes (some fs) d = d := by
  show (if 0 < (fs.map idxName).length then
      match mongoCreateIndexes d (fs.map idxName) with
      | Except.ok db2 => db2
      | Except.error _ => d
    else d) = d
  rw [if_pos hlen, mongoCreateIndexes_pos h]

theorem repoCreateIndexes_some_neg {fs : List String} {d : DbState}
    (hlen : 0 < (fs.map idxName).length)
    (h : ((fs.map idxName).any fun n => d.indexNames.contains n) = false) :
    repoCreateIndexes (some fs) d =
      { d with indexNames := d.indexNames ++ fs.map idxName } := by
  show (if 0 < (fs.map idxName).length then
      match mongoCreateIndexes d (fs.map idxName) with
      | Except.ok db2 => db2
      | Except.error _ => d
    else d) = _
  rw [if_pos hlen, mongoCreateIndexes_neg h]

theorem initCollections_of_contains {uniqueFields : Option (List String)}
    {collectionName : String} {db : DbState}
    (hc : db.collections.contains collectionName = true) :
    initCollections uniqueFields collectionName db =
      (repoCreateIndexes uniqueFields db, false) := by
  show (repoCreateIndexes uniqueFields
      (if (!(db.collections.contains collectionName)) = true then
        { db with collections := db.collections ++ [collectionName] }
      else db), !(db.collections.contains collectionName)) = _
  rw [hc]
  rfl

theorem initCollections_of_not_contains {uniqueFields : Option (List String)}
    {collectionName : String} {db : DbState}
    (hc : db.collections.contains collectionName = false) :
    initCollections uniqueFields collectionName db =
      (repoCreateIndexes uniqueFields
        { db with collections := db.collections ++ [collectionName] }, true) := by
  show (repoCreateIndexes uniqueFields
      (if (!(db.collections.contains collectionName)) = true then
        { db with collections := db.collections ++ [collectionName] }
      else db), !(db.collections.contains collectionName)) = _
  rw [hc]
  rfl

theorem repoCreateIndexes_collections (uniqueFields : Option (List String))
    (d : DbState) :
    (repoCreateIndexes uniqueFields d).collections = d.collections := by
  cases uniqueFields with
  | none => rfl
  | some fs =>
      by_cases hlen : 0 < (fs.map idxName).length
      · by_cases h2 : ((fs.map idxName).any fun n => d.indexNames.contains n) = true
        · rw [repoCreateIndexes_some_pos hlen h2]
        · rw [repoCreateIndexes_some_neg hlen (by simpa using h2)]
      · rw [repoCreateIndexes_short hlen]

theorem initCollections_second_call (uniqueFields : Option (List String))
    (collectionName : String) (db dbA : DbState)
    (hnodup : db.indexNames.Nodup)
    (hufn : ∀ fs, uniqueFields = some fs → fs.Nodup)
    (hAn : dbA.indexNames = db.indexNames)
    (hAc : dbA.collections.contains collectionName = true) :
    initCollections uniqueFields collectionName
        (repoCreateIndexes uniqueFields dbA) =
      (repoCreateIndexes uniqueFields dbA, false) ∧
    (repoCreateIndexes uniqueFields dbA).indexNames.Nodup ∧
    (∀ fs, uniqueFields = some fs → fs ≠ [] →
      mongoCreateIndexes (repoCreateIndexes uniqueFields dbA) (fs.map idxName) =
        Except.error "index already exists") := by
  have hc1 : (repoCreateIndexes uniqueFields dbA).collections.contains
      collectionName = true := by
    rw [repoCreateIndexes_collections]
    exact hAc
  have hany1 : ∀ fs, uniqueFields = some fs → fs ≠ [] →
      ((fs.map idxName).any fun n =>
        (repoCreateIndexes uniqueFields dbA).indexNames.contains n) = true := by
    intro fs hu hfs
    subst hu
    have hlen : 0 < (fs.map idxName).length := by
      rw [List.length_map]
      exact List.length_pos.mpr hfs
    by_cases h2 : ((fs.map idxName).any fun n => dbA.indexNames.contains n) = true
    · rw [repoCreateIndexes_some_pos hlen h2]
      exact h2
    · rw [repoCreateIndexes_some_neg hlen (by simpa using h2)]
      obtain ⟨n0, hn0⟩ :=
        List.exists_mem_of_ne_nil (fs.map idxName) (by simpa using hfs)
      apply List.any_eq_true.mpr
      refine ⟨n0, hn0, ?_⟩
      exact contains_true_of_mem (List.mem_append.mpr (Or.inr hn0))
  refine ⟨?_, ?_, ?_⟩
  · have hfix : repoCreateIndexes uniqueFields
        (repoCreateIndexes uniqueFields dbA) =
        repoCreateIndexes uniqueFields dbA := by
      cases hu : uniqueFields with
      | none => rfl
      | some fs =>
          by_cases hfs : fs = []
          · subst hfs
            exact repoCreateIndexes_short (by simp)
          · have hlen : 0 < (fs.map idxName).length := by
              rw [List.length_map]
              exact List.length_pos.mpr hfs
            have h := hany1 fs hu hfs
            rw [hu] at h
            exact repoCreateIndexes_some_pos hlen h
    rw [initCollections_of_contains hc1, hfix]
  · cases hu : uniqueFields with
    | none =>
        show dbA.indexNames.Nodup
        rw [hAn]
        exact hnodup
    | some fs =>
        by_cases hfs : fs = []
        · subst hfs
          rw [repoCreateIndexes_short (by simp), hAn]
          exact hnodup
        · have hlen : 0 < (fs.map idxName).length := by
            rw [List.length_map]
            exact List.length_pos.mpr hfs
          by_cases h2 : ((fs.map idxName).any fun n =>
              dbA.indexNames.contains n) = true
          · rw [repoCreateIndexes_some_pos hlen h2, hAn]
            exact hnodup
          · have h2f : ((fs.map idxName).any fun n =>
                dbA.indexNames.contains n) = false := by simpa using h2
            rw [repoCreateIndexes_some_neg hlen h2f]
            show (dbA.indexNames ++ fs.map idxName).Nodup
            rw [hAn]
            rw [List.nodup_append]
            refine ⟨hnodup, List.Nodup.map idxName_inj (hufn fs hu), ?_⟩
            intro a ha hax
            have h3 := List.any_eq_false.mp h2f a hax
            rw [hAn] at h3
            exact h3 (contains_true_of_mem ha)
  · intro fs hu hfs
    exact mongoCreateIndexes_pos (hany1 fs hu hfs)

/-- C9: two consecutive initializations from any well-formed database
state produce no error and no duplicate indexes: the second call finds
the collection already present and returns the state of the first call
unchanged with `isNew = false`, the index-name list stays
duplicate-free, and the second call's index creation — which the store
reports as "index already exists" — is swallowed as success by the
repository's catch block. -/
theorem c9_idempotent_initialization (uniqueFields : Option (List String))
    (collectionName : String) (db : DbState)
    (hnodup : db.indexNames.Nodup)
    (hufn : ∀ fs, uniqueFields = some fs → fs.Nodup) :
    initCollections uniqueFields collectionName
        (initCollections uniqueFields collectionName db).1 =
      ((initCollections uniqueFields collectionName db).1, false) ∧
    (initCollections uniqueFields collectionName db).1.indexNames.Nodup ∧
    (∀ fs, uniqueFields = some fs → fs ≠ [] →
      mongoCreateIndexes (initCollections uniqueFields collectionName db).1
          (fs.map idxName) = Except.error "index already exists") := by
  cases hc : db.collections.contains collectionName with
  | true =>
      have hspec : (initCollections uniqueFields collectionName db).1 =
          repoCreateIndexes uniqueFields db := by
        rw [initCollections_of_contains hc]
      rw [hspec]
      exact initCollections_second_call uniqueFields collectionName db db
        hnodup hufn rfl hc
  | false =>
      have hspec : (initCollections uniqueFields collectionName db).1 =
          repoCreateIndexes uniqueFields
            { db with collections := db.collections ++ [collectionName] } := by
        rw [initCollections_of_not_contains hc]
      rw [hspec]
      exact initCollections_second_call uniqueFields collectionName db
        { db with collections := db.collections ++ [collectionName] }
        hnodup hufn rfl
        (contains_true_of_mem
          (List.mem_append.mpr (Or.inr (List.mem_singleton.mpr rfl))))

/-- C9 witness: initializing a `users` collection with a unique `email`
field twice from the empty database. -/
theorem c9_idempotent_initialization_witness :
    (⟨[], []⟩ : DbState).indexNames.Nodup ∧
    (initCollections (some ["email"]) "users"
        (initCollections (some ["email"]) "users" ⟨[], []⟩).1 =
      ((initCollections (some ["email"]) "users" ⟨[], []⟩).1, false) ∧
    (initCollections (some ["email"]) "users" ⟨[], []⟩).1.indexNames.Nodup ∧
    (∀ fs, (some ["email"] : Option (List String)) = some fs → fs ≠ [] →
      mongoCreateIndexes (initCollections (some ["email"]) "users" ⟨[], []⟩).1
          (fs.map idxName) = Except.error "index already exists")) :=
  ⟨by decide,
   c9_idempotent_initialization (some ["email"]) "users" ⟨[], []⟩
     (by decide)
     (by
       intro fs h
       cases h
       decide)⟩

/-- C10: for every HTTP find request, the controller either rejects the
pagination with a ValidationError or passes fully explicit options to
the service: skip defaults to 0 and is non-negative, limit defaults to
50, is positive and capped at 100, sortBy defaults to `createdAt`, the
order is descending exactly when the query says `sortOrder=desc`, every
member of the options object is set (so the repository defaults are
never consulted on this path), and no request can receive more than 100
items in one page. -/
theorem c10_controller_pagination (query : List (String × String)) :
    (∀ e, controllerFindOptions query = Except.error e →
      e.kind = ErrKind.validation) ∧
    (∀ c, controllerFindOptions query = Except.ok c →
      0 ≤ c.skip ∧ 1 ≤ c.limit ∧ c.limit ≤ 100 ∧
      (List.lookup "skip" query = none → c.skip = 0) ∧
      (List.lookup "limit" query = none → c.limit = 50) ∧
      (List.lookup "sortBy" query = none → c.sortBy = "createdAt") ∧
      (c.sortOrder = -1 ↔ List.lookup "sortOrder" query = some "desc") ∧
      toRepoOptions c = ⟨some c.skip.toNat, some c.limit.toNat,
        some c.sortBy, some c.sortOrder⟩ ∧
      (∀ st fq, (repoFind st fq (toRepoOptions c)).data.length ≤ 100)) := by
  have hdef : controllerFindOptions query =
      (if jsOrInt (jsParseIntQ (List.lookup "skip" query)) 0 < 0 then
        Except.error (mkValidationErr "Skip parameter must be non-negative"
          "skip" ["Skip value cannot be negative"])
      else if min (jsOrInt (jsParseIntQ (List.lookup "limit" query)) 50) 100 ≤ 0 then
        Except.error (mkValidationErr "Limit parameter must be positive"
          "limit" ["Limit value must be greater than 0"])
      else Except.ok
        ⟨jsOrInt (jsParseIntQ (List.lookup "skip" query)) 0,
         min (jsOrInt (jsParseIntQ (List.lookup "limit" query)) 50) 100,
         jsOrStr (List.lookup "sortBy" query) "createdAt",
         if List.lookup "sortOrder" query = some "desc" then -1 else 1⟩) := rfl
  by_cases h1 : jsOrInt (jsParseIntQ (List.lookup "skip" query)) 0 < 0
  · rw [hdef, if_pos h1]
    constructor
    · intro e he
      cases he
      rfl
    · intro c hc
      exact Except.noConfusion hc
  · by_cases h2 : min (jsOrInt (jsParseIntQ (List.lookup "limit" query)) 50) 100 ≤ 0
    · rw [hdef, if_neg h1, if_pos h2]
      constructor
      · intro e he
        cases he
        rfl
      · intro c hc
        exact Except.noConfusion hc
    · rw [hdef, if_neg h1, if_neg h2]
      constructor
      · intro e he
        exact Except.noConfusion he
      · intro c hc
        cases hc
        refine ⟨?_, ?_, min_le_right _ _, ?_, ?_, ?_, ?_, rfl, ?_⟩
        · show (0 : Int) ≤ jsOrInt (jsParseIntQ (List.lookup "skip" query)) 0
          omega
        · show (1 : Int) ≤
            min (jsOrInt (jsParseIntQ (List.lookup "limit" query)) 50) 100
          omega
        · intro hlk
          show jsOrInt (jsParseIntQ (List.lookup "skip" query)) 0 = 0
          rw [hlk]
          rfl
        · intro hlk
          show min (jsOrInt (jsParseIntQ (List.lookup "limit" query)) 50) 100 = 50
          rw [hlk]
          decide
        · intro hlk
          show jsOrStr (List.lookup "sortBy" query) "createdAt" = "createdAt"
          rw [hlk]
          rfl
        · show (if List.lookup "sortOrder" query = some "desc" then (-1 : Int) else 1) = -1 ↔
            List.lookup "sortOrder" query = some "desc"
          by_cases hso : List.lookup "sortOrder" query = some "desc"
          · rw [if_pos hso]
            exact ⟨fun _ => hso, fun _ => rfl⟩
          · rw [if_neg hso]
            constructor
            · intro hh
              exact absurd hh (by decide)
            · intro hh
              exact absurd hh hso
        · intro st fq
          have hl2 : ¬min (jsOrInt (jsParseIntQ (List.lookup "limit" query)) 50) 100 ≤ 0 := h2
          have hto100 :
              (min (jsOrInt (jsParseIntQ (List.lookup "limit" query)) 50) 100).toNat ≤ 100 := by
            have := min_le_right (jsOrInt (jsParseIntQ (List.lookup "limit" query)) 50) (100 : Int)
            omega
          have hne : ¬(min (jsOrInt (jsParseIntQ (List.lookup "limit" query)) 50) 100).toNat = 0 := by
            omega
          have hdata : (repoFind st fq (toRepoOptions
              ⟨jsOrInt (jsParseIntQ (List.lookup "skip" query)) 0,
               min (jsOrInt (jsParseIntQ (List.lookup "limit" query)) 50) 100,
               jsOrStr (List.lookup "sortBy" query) "createdAt",
               if List.lookup "sortOrder" query = some "desc" then -1 else 1⟩)).data =
              ((List.mergeSort (st.docs.filter (docMatches fq))
                (sortKeyLe (jsOrStr (List.lookup "sortBy" query) "createdAt")
                  (if List.lookup "sortOrder" query = some "desc" then -1 else 1))).drop
                (jsOrInt (jsParseIntQ (List.lookup "skip" query)) 0).toNat).take
                (min (jsOrInt (jsParseIntQ (List.lookup "limit" query)) 50) 100).toNat := by
            simp [repoFind, toRepoOptions, hne]
          rw [hdata]
          exact le_trans (List.length_take_le _ _) hto100

/-- C10 witness: the query `limit=250&sortOrder=desc` yields the
explicit options skip 0, limit 100, sortBy `createdAt`, descending. -/
theorem c10_controller_pagination_witness :
    controllerFindOptions [("limit", "250"), ("sortOrder", "desc")] =
      Except.ok ⟨0, 100, "createdAt", -1⟩ ∧
    (0 ≤ (0 : Int) ∧ 1 ≤ (100 : Int) ∧ (100 : Int) ≤ 100 ∧
     (List.lookup "skip" [("limit", "250"), ("sortOrder", "desc")] = none →
       (0 : Int) = 0) ∧
     (List.lookup "limit" [("limit", "250"), ("sortOrder", "desc")] = none →
       (100 : Int) = 50) ∧
     (List.lookup "sortBy" [("limit", "250"), ("sortOrder", "desc")] = none →
       ("createdAt" : String) = "createdAt") ∧
     ((-1 : Int) = -1 ↔
       List.lookup "sortOrder" [("limit", "250"), ("sortOrder", "desc")] =
         some "desc") ∧
     toRepoOptions ⟨0, 100, "createdAt", -1⟩ =
       ⟨some (Int.toNat 0), some (Int.toNat 100), some "createdAt", some (-1)⟩ ∧
     (∀ st fq, (repoFind st fq (toRepoOptions ⟨0, 100, "createdAt", -1⟩)).data.length ≤ 100)) :=
  ⟨rfl,
   (c10_controller_pagination [("limit", "250"), ("sortOrder", "desc")]).2
     ⟨0, 100, "createdAt", -1⟩ rfl⟩
